import Mathlib

/-!
Shallow embedding of `src/app.py` (Flask donation-inventory backend):
the validation layer (`parse_iso_date`, `validate_payload` with its inner
helpers `get_str` / `get_int`) and the CRUD handlers
(`create_donation`, `update_donation`, `delete_donation`) operating on the
SQLite-backed `donations` table, modelled as a list of rows.

Machine-level conventions of the embedding:
* JSON values delivered by `request.get_json()` are modelled by `JVal`.
  Python's `bool` is a subclass of `int`, so `isinstance(v, int)` is true
  for booleans and `True` compares equal to `1`; this is captured by
  `pyIsInt` / `pyIntVal`.
* A payload is a finite map `String → Option JVal`; `payload.get(key)`
  returns Python `None` both for a missing key and a JSON `null` value,
  captured by `pyGet`.
* Timestamps (`datetime.utcnow()`) are modelled as abstract `Nat` ticks,
  one tick per request; the wall clock is assumed nondecreasing across
  requests.
* `abort(400/404, ...)` is modelled by returning `Except.error`; a Flask
  request that aborts never reaches `db.session.commit()`, so an erroring
  operation leaves the persisted state unchanged (see `stepOp`).
* `datetime.fromisoformat` is modelled after CPython 3.11 (the C
  implementation, checked against 3.11.6), including compact dates and
  times, `Z` and `+`/`-` offsets, and the parser's tolerance quirks; ISO
  week dates (`2024-W03-1`), which the spec's `YYYY-MM-DD` family does not
  cover, are outside the modelled domain (see `fromisoformat`).
-/

/-- A JSON value as decoded by Flask's `request.get_json()` into Python
objects. `jarr` / `jobj` stand for arrays and objects; their contents are
never inspected by any code modelled here, so they carry no payload.
`jfloat m e` stands for the float `m * 2^e`; floats are only ever type-tested,
never read. -/
inductive JVal where
  | jnull : JVal
  | jbool (b : Bool) : JVal
  | jint (n : Int) : JVal
  | jfloat (m : Int) (e : Int) : JVal
  | jstr (s : String) : JVal
  | jarr : JVal
  | jobj : JVal
deriving DecidableEq

/-- A request payload: the JSON object passed to `validate_payload`. -/
def Payload : Type := String → Option JVal

/-- The empty payload `{}`. -/
def pempty : Payload := fun _ => none

/-- Payload with key `k` (re)bound to value `v`. -/
def pinsert (p : Payload) (k : String) (v : JVal) : Payload :=
  fun k' => if k' = k then some v else p k'

/-- Payload with key `k` removed. -/
def pdelete (p : Payload) (k : String) : Payload :=
  fun k' => if k' = k then none else p k'

/-- Models Python's `payload.get(key)`: returns `None` (here `none`) both
when the key is absent and when it is bound to JSON `null`. -/
def pyGet (p : Payload) (k : String) : Option JVal :=
  match p k with
  | none => none
  | some JVal.jnull => none
  | some v => some v

/-- Models `isinstance(v, int)`. In Python `bool` is a subclass of `int`,
so booleans pass this test. -/
def pyIsInt : JVal → Bool
  | JVal.jint _ => true
  | JVal.jbool _ => true
  | _ => false

/-- The integer value of a Python object that passed `isinstance(v, int)`:
`True` is `1` and `False` is `0`. (Other constructors are never reached.) -/
def pyIntVal : JVal → Int
  | JVal.jint n => n
  | JVal.jbool b => if b then 1 else 0
  | _ => 0

/-- ASCII whitespace as stripped by Python's `str.strip()` (exotic Unicode
whitespace is not modelled). -/
def pyIsSpace (c : Char) : Bool :=
  c = ' ' || c = '\t' || c = '\n' || c = '\r' || c = '\x0b' || c = '\x0c'

/-- Models Python's `v.strip()`: drop leading and trailing whitespace. -/
def pyStrip (s : String) : String :=
  String.mk (((s.toList.dropWhile pyIsSpace).reverse.dropWhile pyIsSpace).reverse)

/-- An aborted request: `abort(400, ...)` or `abort(404, ...)`, plus the
500 a raised `KeyError` would produce. -/
inductive Err where
  | badRequest (msg : String) : Err
  | notFound (msg : String) : Err
  | internal (msg : String) : Err
deriving DecidableEq

/-- Validation mode: `full` models `validate_payload(..., partial=False)`
(POST), `part` models `partial=True` (PUT). -/
inductive Mode where
  | full : Mode
  | part : Mode
deriving DecidableEq

/-- A Python `datetime.date` value. -/
structure PyDate where
  year : Nat
  month : Nat
  day : Nat
deriving DecidableEq

/-- Gregorian leap-year rule, as used by `datetime.date`. -/
def isLeap (y : Nat) : Bool :=
  (y % 4 = 0 && y % 100 ≠ 0) || y % 400 = 0

/-- Number of days in month `m` of year `y`. -/
def daysInMonth (y m : Nat) : Nat :=
  if m = 2 then (if isLeap y then 29 else 28)
  else if m = 4 || m = 6 || m = 9 || m = 11 then 30
  else 31

/-- The validity check performed by the `datetime.date` constructor:
`MINYEAR = 1 ≤ year ≤ MAXYEAR = 9999`, `1 ≤ month ≤ 12`,
`1 ≤ day ≤ daysInMonth`. -/
def validDate (d : PyDate) : Bool :=
  1 ≤ d.year && d.year ≤ 9999 && 1 ≤ d.month && d.month ≤ 12 &&
    1 ≤ d.day && d.day ≤ daysInMonth d.year d.month

/-- The decimal digit character for `k < 10`. -/
def digitChar (k : Nat) : Char := Char.ofNat (48 + k)

/-- Numeric value of a digit character. -/
def digVal (c : Char) : Nat := c.toNat - 48

/-- Models `date.isoformat()`, i.e. `"%04d-%02d-%02d"` zero-padded
serialization (years are at most 9999 by construction). -/
def PyDate.isoformat (d : PyDate) : String :=
  String.mk [digitChar (d.year / 1000 % 10), digitChar (d.year / 100 % 10),
    digitChar (d.year / 10 % 10), digitChar (d.year % 10), '-',
    digitChar (d.month / 10 % 10), digitChar (d.month % 10), '-',
    digitChar (d.day / 10 % 10), digitChar (d.day % 10)]

/-- Value of a two-digit group. -/
def twoDig (a b : Char) : Nat := digVal a * 10 + digVal b

/-- Both characters are decimal digits. -/
def twoDigOk (a b : Char) : Bool := a.isDigit && b.isDigit

/-- Fraction digits after a `.`/`,`/post-seconds `:`. CPython parses the
first six digits and then scans the rest; in strict mode (whole time
string, UTC offsets) every remaining character must also be a digit, while
before a `Z`/`+`/`-` delimiter a positive stop is tolerated, so a fraction
of six or more leading digits may be followed by anything. The value is
irrelevant here since only the date is retained. -/
def fracValid (tol : Bool) (fr : List Char) : Bool :=
  if tol && decide (6 ≤ fr.length) then (fr.take 6).all Char.isDigit
  else !fr.isEmpty && fr.all Char.isDigit

/-- A fraction separator: CPython 3.11 accepts both `.` and `,`. -/
def isFracSep (c : Char) : Bool := c = '.' || c = ','

/-- Models CPython 3.11's C `parse_hh_mm_ss_ff` consuming an exact slice
(the "strict" mode, used for the whole time string and for UTC offsets):
`HH`, `HH:MM`, `HH:MM:SS`, `HHMM` or `HHMMSS`, optionally followed by a
fraction — introduced by `.` or `,` anywhere; after a `:`-separated `SS`
a `:` also introduces a fraction (the probe loop treats it as a
continuation and falls through to fraction parsing); after a compact
`HHMMSS` a bare run of at least two digits is a fraction (a single
trailing character trips the end-of-slice probe and fails). Returns the
(hour, minute, second) triple; fractional digits are discarded. -/
def parse_hh_mm_ss_ff (tol : Bool) (l : List Char) : Option (Nat × Nat × Nat) :=
  match l with
  | a :: b :: rest =>
      if twoDigOk a b then
        let h := twoDig a b
        match rest with
        | [] => some (h, 0, 0)
        | ':' :: r2 =>
            (match r2 with
             | c :: d :: r3 =>
                 if twoDigOk c d then
                   let m := twoDig c d
                   match r3 with
                   | [] => some (h, m, 0)
                   | ':' :: r4 =>
                       (match r4 with
                        | e :: f :: r5 =>
                            if twoDigOk e f then
                              let s := twoDig e f
                              match r5 with
                              | [] => some (h, m, s)
                              | g :: fr =>
                                  if (isFracSep g || g = ':') && fracValid tol fr then
                                    some (h, m, s)
                                  else none
                            else none
                        | _ => none)
                   | g :: fr => if isFracSep g && fracValid tol fr then some (h, m, 0) else none
                 else none
             | _ => none)
        | g :: fr =>
            if isFracSep g then
              (if fracValid tol fr then some (h, 0, 0) else none)
            else
              (match rest with
               | c :: d :: r3 =>
                   if twoDigOk c d then
                     let m := twoDig c d
                     match r3 with
                     | [] => some (h, m, 0)
                     | g2 :: fr2 =>
                         if isFracSep g2 then
                           (if fracValid tol fr2 then some (h, m, 0) else none)
                         else
                           (match r3 with
                            | e :: f :: r5 =>
                                if twoDigOk e f then
                                  let s := twoDig e f
                                  match r5 with
                                  | [] => some (h, m, s)
                                  | g3 :: fr3 =>
                                      if isFracSep g3 then
                                        (if fracValid tol fr3 then some (h, m, s) else none)
                                      else
                                        (if fracValid tol r5 && decide (2 ≤ r5.length) then
                                          some (h, m, s)
                                         else none)
                                else none
                            | _ => none)
                   else none
               | _ => none)
      else none
  | _ => none

/-- The component-only time forms (`HH`, `HH:MM`, `HH:MM:SS`, `HHMM`,
`HHMMSS`, no fraction). When the time string is followed by a `Z`/`+`/`-`
delimiter, CPython's probe loop reads one character past a complete
component and tolerates it (returning 1, accepted by the caller for the
pre-delimiter portion), so such a prefix plus one arbitrary character is
also accepted there. -/
def completeComps (l : List Char) : Option (Nat × Nat × Nat) :=
  match l with
  | [a, b] => if twoDigOk a b then some (twoDig a b, 0, 0) else none
  | [a, b, ':', c, d] =>
      if twoDigOk a b && twoDigOk c d then some (twoDig a b, twoDig c d, 0) else none
  | [a, b, ':', c, d, ':', e, f] =>
      if twoDigOk a b && twoDigOk c d && twoDigOk e f then
        some (twoDig a b, twoDig c d, twoDig e f)
      else none
  | [a, b, c, d] =>
      if twoDigOk a b && twoDigOk c d then some (twoDig a b, twoDig c d, 0) else none
  | [a, b, c, d, e, f] =>
      if twoDigOk a b && twoDigOk c d && twoDigOk e f then
        some (twoDig a b, twoDig c d, twoDig e f)
      else none
  | _ => none

/-- The characters at which CPython's scan splits off the UTC offset. -/
def isTZDelim (c : Char) : Bool := c = 'Z' || c = '+' || c = '-'

/-- Split the time string at the first `Z`/`+`/`-`, as CPython does. -/
def splitTZ : List Char → List Char × Option (Char × List Char)
  | [] => ([], none)
  | x :: xs =>
      if isTZDelim x then ([], some (x, xs))
      else
        let p := splitTZ xs
        (x :: p.1, p.2)

/-- Range checks of the `time` constructor applied to a parsed clock. -/
def clockOk : Option (Nat × Nat × Nat) → Bool
  | some (h, m, s) => h < 24 && m < 60 && s < 60
  | none => false

/-- A UTC offset is accepted when strictly below 24 hours in magnitude
(`timezone` bounds check); the individual components are not range
checked, so `+05:60` means six hours. -/
def offsetOk : Option (Nat × Nat × Nat) → Bool
  | some (h, m, s) => h * 3600 + m * 60 + s < 86400
  | none => false

/-- Parse of the clock portion when a `Z`/`+`/`-` delimiter follows: the
strict parse, or a complete component form with one trailing character
consumed-and-ignored by the probe loop. -/
def parseBeforeDelim (l : List Char) : Option (Nat × Nat × Nat) :=
  match parse_hh_mm_ss_ff true l with
  | some v => some v
  | none =>
      match l with
      | [] => none
      | _ => completeComps l.dropLast

/-- Models `_parse_isoformat_time` of CPython 3.11: split at the first
`Z`/`+`/`-`; the clock before it must parse (tolerantly when a delimiter
follows); `Z` must be the final character; a `+`/`-` offset is parsed
strictly and must stay below 24 hours. -/
def validTime (t : List Char) : Bool :=
  match splitTZ t with
  | (timestr, none) => clockOk (parse_hh_mm_ss_ff false timestr)
  | (timestr, some (d, rest)) =>
      clockOk (parseBeforeDelim timestr) &&
        (if d = 'Z' then rest.isEmpty else offsetOk (parse_hh_mm_ss_ff false rest))

/-- Models `datetime.fromisoformat(value).date()` as implemented by
CPython 3.11 (verified against 3.11.6): the date portion is either
`YYYY-MM-DD` (separator location 10) or compact `YYYYMMDD` (separator
location 8, when position 4 is not a dash), a valid calendar date; any
remainder is one separator character (any character at all) followed by a
valid time portion. Returns the date component only, as the code
immediately calls `.date()`. ISO week dates (`2024-W03-1`, `2024W031`),
which CPython ≥ 3.11 also accepts, are outside the modelled domain — the
spec's date family is `YYYY-MM-DD` — and map to `none` here. -/
def fromisoformat (s : String) : Option PyDate :=
  match s.toList with
  | y1 :: y2 :: y3 :: y4 :: '-' :: m1 :: m2 :: '-' :: d1 :: d2 :: rest =>
      if twoDigOk y1 y2 && twoDigOk y3 y4 && twoDigOk m1 m2 && twoDigOk d1 d2 then
        let dt : PyDate :=
          ⟨twoDig y1 y2 * 100 + twoDig y3 y4, twoDig m1 m2, twoDig d1 d2⟩
        if validDate dt then
          match rest with
          | [] => some dt
          | _ :: t => if validTime t then some dt else none
        else none
      else none
  | y1 :: y2 :: y3 :: y4 :: m1 :: m2 :: d1 :: d2 :: rest =>
      if twoDigOk y1 y2 && twoDigOk y3 y4 && twoDigOk m1 m2 && twoDigOk d1 d2 then
        let dt : PyDate :=
          ⟨twoDig y1 y2 * 100 + twoDig y3 y4, twoDig m1 m2, twoDig d1 d2⟩
        if validDate dt then
          match rest with
          | [] => some dt
          | _ :: t => if validTime t then some dt else none
        else none
      else none
  | _ => none

/-- Decidable equality for `Except`, so that concrete runs of the embedded
operations can be checked by `decide`. -/
instance {ε α : Type _} [DecidableEq ε] [DecidableEq α] : DecidableEq (Except ε α) :=
  fun x y =>
    match x, y with
    | Except.ok a, Except.ok b =>
        if h : a = b then Decidable.isTrue (by rw [h]) else Decidable.isFalse (by simp [h])
    | Except.error a, Except.error b =>
        if h : a = b then Decidable.isTrue (by rw [h]) else Decidable.isFalse (by simp [h])
    | Except.ok _, Except.error _ => Decidable.isFalse (by simp)
    | Except.error _, Except.ok _ => Decidable.isFalse (by simp)

/-- The `allowed_types` set from `validate_payload` (source order of the
set literal). Membership is what matters; the rejection message renders
Python's `sorted(allowed_types)`. -/
def allowed_types : List String := ["money", "food", "clothing", "other"]

/-- Models `parse_iso_date(value)`: non-strings abort 400 with a type
message; strings are parsed with `datetime.fromisoformat`, aborting 400
with a format message on `ValueError`. -/
def parse_iso_date (v : JVal) : Except Err PyDate :=
  match v with
  | JVal.jstr s =>
      match fromisoformat s with
      | some d => Except.ok d
      | none => Except.error (Err.badRequest "Invalid date format; expected ISO (YYYY-MM-DD)")
  | _ => Except.error (Err.badRequest "date must be a string in ISO format (YYYY-MM-DD)")

/-- Models the inner helper `get_str(key, required=not partial)` of
`validate_payload`: `None` (missing or JSON null) is an error in full mode
and skipped in partial mode; otherwise the value must be a string that is
non-empty after stripping, and the stripped value is returned. -/
def get_str (m : Mode) (p : Payload) (key : String) : Except Err (Option String) :=
  match pyGet p key with
  | none =>
      if m = Mode.full then Except.error (Err.badRequest ("Missing required field: " ++ key))
      else Except.ok none
  | some v =>
      match v with
      | JVal.jstr s =>
          if pyStrip s = "" then
            Except.error (Err.badRequest (key ++ " must be a non-empty string"))
          else Except.ok (some (pyStrip s))
      | _ => Except.error (Err.badRequest (key ++ " must be a non-empty string"))

/-- Models the inner helper `get_int(key, required=not partial)`: the value
must satisfy `isinstance(v, int)` (booleans included, Python subclassing)
and be `>= 1`; the Python object is returned, its integer value here. -/
def get_int (m : Mode) (p : Payload) (key : String) : Except Err (Option Int) :=
  match pyGet p key with
  | none =>
      if m = Mode.full then Except.error (Err.badRequest ("Missing required field: " ++ key))
      else Except.ok none
  | some v =>
      if pyIsInt v && decide (1 ≤ pyIntVal v) then Except.ok (some (pyIntVal v))
      else Except.error (Err.badRequest (key ++ " must be a positive integer"))

/-- The `donation_type` unit of `validate_payload`: `get_str` followed by
the membership test against `allowed_types`. The Python message renders
`sorted(allowed_types)` with quoted elements; the quotes are omitted here. -/
def check_type (m : Mode) (p : Payload) : Except Err (Option String) :=
  match get_str m p "donation_type" with
  | Except.error e => Except.error e
  | Except.ok none => Except.ok none
  | Except.ok (some dt) =>
      if allowed_types.contains dt then Except.ok (some dt)
      else Except.error (Err.badRequest "donation_type must be one of [clothing, food, money, other]")

/-- The `date` unit of `validate_payload`: raw `payload.get("date")`,
missing (or null) is an error only in full mode; a present value goes
through `parse_iso_date`. -/
def check_date (m : Mode) (p : Payload) : Except Err (Option PyDate) :=
  match pyGet p "date" with
  | none =>
      if m = Mode.full then Except.error (Err.badRequest "Missing required field: date")
      else Except.ok none
  | some v =>
      match parse_iso_date v with
      | Except.error e => Except.error e
      | Except.ok d => Except.ok (some d)

/-- The validated output dictionary `out`: a key is in `out` iff the
corresponding field is `some`. -/
structure ValidOut where
  donor_name : Option String
  donation_type : Option String
  quantity_or_amount : Option Int
  date : Option PyDate
deriving DecidableEq

/-- Models `validate_payload(payload, partial)`: the four fields are
checked in source order (donor_name, donation_type, quantity_or_amount,
date), aborting on the first failure. -/
def validate_payload (m : Mode) (p : Payload) : Except Err ValidOut :=
  match get_str m p "donor_name" with
  | Except.error e => Except.error e
  | Except.ok dn =>
      match check_type m p with
      | Except.error e => Except.error e
      | Except.ok dt =>
          match get_int m p "quantity_or_amount" with
          | Except.error e => Except.error e
          | Except.ok q =>
              match check_date m p with
              | Except.error e => Except.error e
              | Except.ok dd =>
                  Except.ok { donor_name := dn, donation_type := dt,
                              quantity_or_amount := q, date := dd }

/-- A row of the `donations` table (the `Donation` model). -/
structure Donation where
  id : Nat
  donor_name : String
  donation_type : String
  quantity_or_amount : Int
  date : PyDate
  created_at : Nat
  updated_at : Nat
deriving DecidableEq

/-- The wire representation produced by `Donation.to_dict` (timestamps are
not serialized). -/
structure WireDonation where
  id : Nat
  donor_name : String
  donation_type : String
  quantity_or_amount : Int
  date : String
deriving DecidableEq

/-- Models `Donation.to_dict`: the date is rendered via `isoformat()`. -/
def Donation.to_dict (r : Donation) : WireDonation :=
  { id := r.id, donor_name := r.donor_name, donation_type := r.donation_type,
    quantity_or_amount := r.quantity_or_amount, date := r.date.isoformat }

/-- The persisted `donations` table. -/
abbrev DState : Type := List Donation

/-- Largest id present in the table (0 when empty). -/
def maxId : DState → Nat
  | [] => 0
  | r :: t => max r.id (maxId t)

/-- Models SQLite rowid assignment for `INTEGER PRIMARY KEY` without
`AUTOINCREMENT` (the declaration at src/app.py:38): the id given to a new
row is one more than the largest id currently in use — which means an id
can be reused once the row holding the maximum id is deleted. -/
def nextId (s : DState) : Nat := maxId s + 1

/-- Models `create_donation` after JSON decoding: validate in full mode,
then insert a fresh row with both timestamps set to the current time.
(The `internal` branch models the `KeyError` a missing key in `data` would
raise; full-mode validation never produces it.) -/
def create_donation (now : Nat) (p : Payload) (s : DState) :
    Except Err (DState × Donation) :=
  match validate_payload Mode.full p with
  | Except.error e => Except.error e
  | Except.ok data =>
      match data.donor_name, data.donation_type, data.quantity_or_amount, data.date with
      | some dn, some dt, some q, some d =>
          let row : Donation :=
            { id := nextId s, donor_name := dn, donation_type := dt,
              quantity_or_amount := q, date := d, created_at := now, updated_at := now }
          Except.ok (s ++ [row], row)
      | _, _, _, _ => Except.error (Err.internal "KeyError")

/-- Applies the four `if "..." in data:` assignments of `update_donation`
to an existing row (timestamp handling is separate, as in the source). -/
def apply_fields (data : ValidOut) (row : Donation) : Donation :=
  { row with
    donor_name := data.donor_name.getD row.donor_name,
    donation_type := data.donation_type.getD row.donation_type,
    quantity_or_amount := data.quantity_or_amount.getD row.quantity_or_amount,
    date := data.date.getD row.date }

/-- Models `update_donation`: validate in partial mode first (the source
validates before querying the row), then 404 if the id is absent, else
apply the provided fields, refresh `updated_at`, and persist. -/
def update_donation (now : Nat) (id : Nat) (p : Payload) (s : DState) :
    Except Err (DState × Donation) :=
  match validate_payload Mode.part p with
  | Except.error e => Except.error e
  | Except.ok data =>
      match s.find? (fun r => r.id == id) with
      | none => Except.error (Err.notFound "Donation not found")
      | some row =>
          let row' : Donation := { apply_fields data row with updated_at := now }
          Except.ok (s.map (fun r => if r.id == id then row' else r), row')

/-- Models `delete_donation`: 404 if the id is absent, else remove the row
(ids are unique, being the primary key, so filtering removes one row). -/
def delete_donation (id : Nat) (s : DState) : Except Err DState :=
  match s.find? (fun r => r.id == id) with
  | none => Except.error (Err.notFound "Donation not found")
  | some _ => Except.ok (s.filter (fun r => !(r.id == id)))

/-- A mutating request against the store. -/
inductive Op where
  | create (p : Payload) : Op
  | update (id : Nat) (p : Payload) : Op
  | delete (id : Nat) : Op

/-- Effect of one request on the persisted state: an aborted request never
reaches `db.session.commit()`, so it leaves the table unchanged. -/
def stepOp (now : Nat) (op : Op) (s : DState) : DState :=
  match op with
  | Op.create p =>
      match create_donation now p s with
      | Except.ok (s', _) => s'
      | Except.error _ => s
  | Op.update id p =>
      match update_donation now id p s with
      | Except.ok (s', _) => s'
      | Except.error _ => s
  | Op.delete id =>
      match delete_donation id s with
      | Except.ok s' => s'
      | Except.error _ => s

/-- Run a sequence of timestamped requests from a starting state. -/
def runTrace (s : DState) : List (Nat × Op) → DState
  | [] => s
  | (t, op) :: rest => runTrace (stepOp t op s) rest

/-- The request timestamps never decrease, starting from clock `t`:
the modelling assumption that `datetime.utcnow()` is nondecreasing. -/
def TimesMono : Nat → List (Nat × Op) → Prop
  | _, [] => True
  | t, (u, _) :: rest => t ≤ u ∧ TimesMono u rest

/-- The per-record business invariant of §3 of the spec. -/
def RecordOk (r : Donation) : Prop :=
  1 ≤ r.quantity_or_amount ∧ allowed_types.contains r.donation_type = true ∧
    r.created_at ≤ r.updated_at

/-- Every persisted record satisfies the business invariant. -/
def BizInv (s : DState) : Prop := ∀ r ∈ s, RecordOk r

/-- All timestamps in the table are at most `t` (the clock seen so far). -/
def TimeBound (t : Nat) (s : DState) : Prop :=
  ∀ r ∈ s, r.created_at ≤ t ∧ r.updated_at ≤ t

/-- A valid full payload (the spec's running example). -/
def pAlice : Payload :=
  pinsert (pinsert (pinsert (pinsert pempty "donor_name" (JVal.jstr "Alice"))
    "donation_type" (JVal.jstr "food")) "quantity_or_amount" (JVal.jint 3))
    "date" (JVal.jstr "2024-01-15")

/-- The same payload with a full ISO timestamp in the date field. -/
def pAliceT : Payload := pinsert pAlice "date" (JVal.jstr "2024-01-15T10:00:00")

/-- A partial payload updating only the quantity. -/
def pQty5 : Payload := pinsert pempty "quantity_or_amount" (JVal.jint 5)

/-- A payload with several invalid fields: `donor_name` is valid, the
other three are each individually invalid. -/
def pBad : Payload :=
  pinsert (pinsert (pinsert (pinsert pempty "donor_name" (JVal.jstr "Bob"))
    "donation_type" (JVal.jstr "clothes")) "quantity_or_amount" (JVal.jint 0))
    "date" (JVal.jstr "nope")

/-- Row produced by creating `pAlice` at time 0 into an empty table. -/
def rowEx : Donation :=
  { id := 1, donor_name := "Alice", donation_type := "food",
    quantity_or_amount := 3, date := ⟨2024, 1, 15⟩, created_at := 0, updated_at := 0 }

/-- Row produced by a second create of `pAlice` at time 3 with `rowEx` live. -/
def rowEx2 : Donation :=
  { id := 2, donor_name := "Alice", donation_type := "food",
    quantity_or_amount := 3, date := ⟨2024, 1, 15⟩, created_at := 3, updated_at := 3 }

/-- `rowEx` after `pQty5` is applied at time 1. -/
def rowEx3 : Donation :=
  { id := 1, donor_name := "Alice", donation_type := "food",
    quantity_or_amount := 5, date := ⟨2024, 1, 15⟩, created_at := 0, updated_at := 1 }

/-- The validated output of `pQty5` in partial mode. -/
def dataQty5 : ValidOut := ⟨none, none, some 5, none⟩

/-- A concrete request trace exercising create, update and create again. -/
def trEx : List (Nat × Op) :=
  [(0, Op.create pAlice), (1, Op.update 1 pQty5), (2, Op.create pAlice)]

/-! Helper lemmas. -/

/-- `pyGet` ignores a key bound to JSON null exactly as it ignores a
deleted key. -/
theorem pyGet_pinsert_null (p : Payload) (k key : String) :
    pyGet (pinsert p k JVal.jnull) key = pyGet (pdelete p k) key := by
  unfold pyGet pinsert pdelete
  by_cases h : key = k <;> simp [h]

/-- `pyGet` on the empty payload. -/
theorem pyGet_pempty (key : String) : pyGet pempty key = none := rfl

/-- `pyGet` never yields a JSON null value. -/
theorem pyGet_ne_null (p : Payload) (k : String) : pyGet p k ≠ some JVal.jnull := by
  unfold pyGet
  cases h : p k with
  | none => simp
  | some v => cases v <;> simp

/-- `get_str` reads the payload only through `pyGet` of its key. -/
theorem get_str_congr (m : Mode) (p₁ p₂ : Payload) (key : String)
    (h : pyGet p₁ key = pyGet p₂ key) : get_str m p₁ key = get_str m p₂ key := by
  unfold get_str
  rw [h]

/-- `get_int` reads the payload only through `pyGet` of its key. -/
theorem get_int_congr (m : Mode) (p₁ p₂ : Payload) (key : String)
    (h : pyGet p₁ key = pyGet p₂ key) : get_int m p₁ key = get_int m p₂ key := by
  unfold get_int
  rw [h]

/-- `check_type` reads the payload only through `pyGet "donation_type"`. -/
theorem check_type_congr (m : Mode) (p₁ p₂ : Payload)
    (h : pyGet p₁ "donation_type" = pyGet p₂ "donation_type") :
    check_type m p₁ = check_type m p₂ := by
  unfold check_type
  rw [get_str_congr m p₁ p₂ "donation_type" h]

/-- `check_date` reads the payload only through `pyGet "date"`. -/
theorem check_date_congr (m : Mode) (p₁ p₂ : Payload)
    (h : pyGet p₁ "date" = pyGet p₂ "date") : check_date m p₁ = check_date m p₂ := by
  unfold check_date
  rw [h]

/-- `validate_payload` reads the payload only through `pyGet`. -/
theorem validate_payload_congr (m : Mode) (p₁ p₂ : Payload)
    (h : ∀ key, pyGet p₁ key = pyGet p₂ key) :
    validate_payload m p₁ = validate_payload m p₂ := by
  unfold validate_payload
  rw [get_str_congr m p₁ p₂ "donor_name" (h _), check_type_congr m p₁ p₂ (h _),
    get_int_congr m p₁ p₂ "quantity_or_amount" (h _), check_date_congr m p₁ p₂ (h _)]

/-- A quantity accepted by `get_int` is at least 1. -/
theorem get_int_ok_ge_one (m : Mode) (p : Payload) (key : String) (n : Int)
    (h : get_int m p key = Except.ok (some n)) : 1 ≤ n := by
  unfold get_int at h
  cases hg : pyGet p key with
  | none =>
      rw [hg] at h
      cases m <;> simp_all
  | some v =>
      rw [hg] at h
      by_cases hc : (pyIsInt v && decide (1 ≤ pyIntVal v)) = true
      · simp only [hc, if_true, Except.ok.injEq, Option.some.injEq] at h
        have hand := (Bool.and_eq_true _ _).mp hc
        have h1 : 1 ≤ pyIntVal v := of_decide_eq_true hand.2
        omega
      · simp [hc] at h

/-- A donation type accepted by `check_type` is in the allowed set. -/
theorem check_type_ok_mem (m : Mode) (p : Payload) (dt : String)
    (h : check_type m p = Except.ok (some dt)) : allowed_types.contains dt = true := by
  unfold check_type at h
  cases hg : get_str m p "donation_type" with
  | error e => rw [hg] at h; simp at h
  | ok o =>
      rw [hg] at h
      cases o with
      | none => simp at h
      | some dt' =>
          by_cases hc : dt' ∈ allowed_types
          · simp [hc] at h
            rw [← h]
            simpa using hc
          · simp [hc] at h

/-- Fields present in a validated output satisfy their range constraints. -/
theorem validate_ok_fields (m : Mode) (p : Payload) (out : ValidOut)
    (h : validate_payload m p = Except.ok out) :
    (∀ q, out.quantity_or_amount = some q → 1 ≤ q) ∧
    (∀ dt, out.donation_type = some dt → allowed_types.contains dt = true) := by
  unfold validate_payload at h
  cases h1 : get_str m p "donor_name" with
  | error e => rw [h1] at h; simp at h
  | ok dn =>
      rw [h1] at h
      cases h2 : check_type m p with
      | error e => rw [h2] at h; simp at h
      | ok dt =>
          rw [h2] at h
          cases h3 : get_int m p "quantity_or_amount" with
          | error e => rw [h3] at h; simp at h
          | ok q =>
              rw [h3] at h
              cases h4 : check_date m p with
              | error e => rw [h4] at h; simp at h
              | ok dd =>
                  rw [h4] at h
                  simp only [Except.ok.injEq] at h
                  subst h
                  constructor
                  · intro q' hq'
                    simp only at hq'
                    subst hq'
                    exact get_int_ok_ge_one m p "quantity_or_amount" q' h3
                  · intro dt' hdt'
                    simp only at hdt'
                    subst hdt'
                    exact check_type_ok_mem m p dt' h2

/-- Every id in the table is at most `maxId`. -/
theorem id_le_maxId (s : DState) (r : Donation) (h : r ∈ s) : r.id ≤ maxId s := by
  induction s with
  | nil => cases h
  | cons x t ih =>
      unfold maxId
      rcases List.mem_cons.mp h with rfl | hm
      · exact Nat.le_max_left _ _
      · exact Nat.le_trans (ih hm) (Nat.le_max_right _ _)

/-- Anatomy of a successful create: the new row is appended, gets id
`nextId s`, carries the validated field values, and both timestamps are
the current time. -/
theorem create_ok_anatomy (now : Nat) (p : Payload) (s s' : DState) (row : Donation)
    (h : create_donation now p s = Except.ok (s', row)) :
    s' = s ++ [row] ∧ row.id = nextId s ∧ row.created_at = now ∧ row.updated_at = now ∧
    ∃ data, validate_payload Mode.full p = Except.ok data ∧
      data.donor_name = some row.donor_name ∧
      data.donation_type = some row.donation_type ∧
      data.quantity_or_amount = some row.quantity_or_amount ∧
      data.date = some row.date := by
  unfold create_donation at h
  split at h
  · simp at h
  · rename_i data heq
    split at h
    · rename_i dn dt q d hdn hdt hq hd
      simp only [Except.ok.injEq, Prod.mk.injEq] at h
      obtain ⟨hs, hr⟩ := h
      subst hr
      exact ⟨hs.symm, rfl, rfl, rfl, data, heq, by simp [hdn], by simp [hdt],
        by simp [hq], by simp [hd]⟩
    · simp at h

/-- Anatomy of a successful update: the stored row is replaced by the
field-patched row with `updated_at` refreshed. -/
theorem update_ok_anatomy (now id : Nat) (p : Payload) (s s' : DState) (row' : Donation)
    (h : update_donation now id p s = Except.ok (s', row')) :
    ∃ data row, validate_payload Mode.part p = Except.ok data ∧
      s.find? (fun r => r.id == id) = some row ∧
      row' = { apply_fields data row with updated_at := now } ∧
      s' = s.map (fun r => if r.id == id then row' else r) := by
  unfold update_donation at h
  cases hv : validate_payload Mode.part p with
  | error e => rw [hv] at h; simp at h
  | ok data =>
      rw [hv] at h
      cases hf : s.find? (fun r => r.id == id) with
      | none => rw [hf] at h; simp at h
      | some row =>
          rw [hf] at h
          simp only [Except.ok.injEq, Prod.mk.injEq] at h
          obtain ⟨hs, hr⟩ := h
          subst hr
          exact ⟨data, row, rfl, rfl, rfl, hs.symm⟩

/-- Anatomy of a successful delete: rows with the target id are removed. -/
theorem delete_ok_anatomy (id : Nat) (s s' : DState)
    (h : delete_donation id s = Except.ok s') :
    s' = s.filter (fun r => !(r.id == id)) := by
  unfold delete_donation at h
  cases hf : s.find? (fun r => r.id == id) with
  | none => rw [hf] at h; simp at h
  | some row =>
      rw [hf] at h
      simp only [Except.ok.injEq] at h
      exact h.symm

/-- One request preserves the business invariant and the clock bound,
provided the wall clock has not gone backwards. -/
theorem step_preserves (t now : Nat) (op : Op) (s : DState)
    (hb : BizInv s) (ht : TimeBound t s) (hle : t ≤ now) :
    BizInv (stepOp now op s) ∧ TimeBound now (stepOp now op s) := by
  have hmono : TimeBound now s :=
    fun r hr => ⟨Nat.le_trans (ht r hr).1 hle, Nat.le_trans (ht r hr).2 hle⟩
  cases op with
  | create p =>
      simp only [stepOp]
      cases hc : create_donation now p s with
      | error e => exact ⟨hb, hmono⟩
      | ok res =>
          obtain ⟨s', row⟩ := res
          obtain ⟨hs, _, hca, hua, data, hv, _, hdt, hq, _⟩ :=
            create_ok_anatomy now p s s' row hc
          subst hs
          have hfields := validate_ok_fields Mode.full p data hv
          constructor
          · intro r hr
            rcases List.mem_append.mp hr with hm | hm
            · exact hb r hm
            · have : r = row := by simpa using hm
              subst this
              exact ⟨hfields.1 r.quantity_or_amount hq,
                hfields.2 r.donation_type hdt, by rw [hca, hua]⟩
          · intro r hr
            rcases List.mem_append.mp hr with hm | hm
            · exact hmono r hm
            · have : r = row := by simpa using hm
              subst this
              rw [hca, hua]
              exact ⟨Nat.le_refl now, Nat.le_refl now⟩
  | update id p =>
      simp only [stepOp]
      cases hc : update_donation now id p s with
      | error e => exact ⟨hb, hmono⟩
      | ok res =>
          obtain ⟨s', row'⟩ := res
          obtain ⟨data, row, hv, hf, hrow, hs⟩ := update_ok_anatomy now id p s s' row' hc
          subst hs
          have hmem : row ∈ s := List.mem_of_find?_eq_some hf
          have hfields := validate_ok_fields Mode.part p data hv
          have hrow_ok : RecordOk row' := by
            subst hrow
            refine ⟨?_, ?_, ?_⟩
            · simp only [apply_fields]
              cases hq : data.quantity_or_amount with
              | none => simpa using (hb row hmem).1
              | some q => simpa using hfields.1 q hq
            · simp only [apply_fields]
              cases hdt : data.donation_type with
              | none => simpa using (hb row hmem).2.1
              | some dt => simpa using hfields.2 dt hdt
            · simp only [apply_fields]
              exact Nat.le_trans (ht row hmem).1 hle
          have hrow_tb : row'.created_at ≤ now ∧ row'.updated_at ≤ now := by
            subst hrow
            exact ⟨Nat.le_trans (ht row hmem).1 hle, Nat.le_refl now⟩
          constructor
          · intro r hr
            obtain ⟨a, ha, hfa⟩ := List.mem_map.mp hr
            by_cases hid : (a.id == id) = true
            · rw [if_pos hid] at hfa
              subst hfa
              exact hrow_ok
            · rw [if_neg hid] at hfa
              subst hfa
              exact hb a ha
          · intro r hr
            obtain ⟨a, ha, hfa⟩ := List.mem_map.mp hr
            by_cases hid : (a.id == id) = true
            · rw [if_pos hid] at hfa
              subst hfa
              exact hrow_tb
            · rw [if_neg hid] at hfa
              subst hfa
              exact hmono a ha
  | delete id =>
      simp only [stepOp]
      cases hc : delete_donation id s with
      | error e => exact ⟨hb, hmono⟩
      | ok s' =>
          have hs := delete_ok_anatomy id s s' hc
          subst hs
          exact ⟨fun r hr => hb r (List.mem_of_mem_filter hr),
            fun r hr => hmono r (List.mem_of_mem_filter hr)⟩

/-- The invariant holds along any trace whose timestamps never decrease. -/
theorem runTrace_inv (tr : List (Nat × Op)) :
    ∀ (s : DState) (t : Nat), BizInv s → TimeBound t s → TimesMono t tr →
      BizInv (runTrace s tr) := by
  induction tr with
  | nil => intro s t hb _ _; exact hb
  | cons hd tl ih =>
      intro s t hb ht hch
      obtain ⟨t₁, op⟩ := hd
      obtain ⟨hle, hch'⟩ := hch
      have hstep := step_preserves t t₁ op s hb ht hle
      exact ih (stepOp t₁ op s) t₁ hstep.1 hstep.2 hch'

/-- A digit character built from `k < 10` passes `isDigit`. -/
theorem digitChar_isDigit (k : Nat) (h : k < 10) : (digitChar k).isDigit = true := by
  interval_cases k <;> decide

/-- `digVal` inverts `digitChar` below 10. -/
theorem digVal_digitChar (k : Nat) (h : k < 10) : digVal (digitChar k) = k := by
  interval_cases k <;> decide

/-- No month has more than 31 days. -/
theorem daysInMonth_le_31 (y m : Nat) : daysInMonth y m ≤ 31 := by
  unfold daysInMonth
  split_ifs <;> omega


/-- Building a string from a character list and listing it back is the
identity. -/
theorem toList_mk (l : List Char) : (String.mk l).toList = l := rfl

/-- Parsing an `isoformat` rendering followed by any remainder: the date
round-trips, and the remainder is accepted exactly when it is empty or one
separator character followed by a valid time portion. -/
theorem fromiso_append (y mo da : Nat) (rest : List Char)
    (hd : validDate ⟨y, mo, da⟩ = true) :
    fromisoformat (String.mk ((PyDate.isoformat ⟨y, mo, da⟩).toList ++ rest)) =
      (match rest with
       | [] => some ⟨y, mo, da⟩
       | _ :: t => if validTime t then some ⟨y, mo, da⟩ else none) := by
  have hfacts : ((((1 ≤ y ∧ y ≤ 9999) ∧ 1 ≤ mo) ∧ mo ≤ 12) ∧ 1 ≤ da) ∧
      da ≤ daysInMonth y mo := by
    simpa [validDate, Bool.and_eq_true, decide_eq_true_eq] using hd
  obtain ⟨⟨⟨⟨⟨hy1, hy2⟩, hm1⟩, hm2⟩, hda1⟩, hda2⟩ := hfacts
  have hda : da ≤ 31 := Nat.le_trans hda2 (daysInMonth_le_31 y mo)
  have hlt : ∀ n : Nat, n % 10 < 10 := fun n => Nat.mod_lt _ (by norm_num)
  have e1 : twoDigOk (digitChar (y / 1000 % 10)) (digitChar (y / 100 % 10)) = true := by
    simp [twoDigOk, digitChar_isDigit _ (hlt _)]
  have e2 : twoDigOk (digitChar (y / 10 % 10)) (digitChar (y % 10)) = true := by
    simp [twoDigOk, digitChar_isDigit _ (hlt _)]
  have e3 : twoDigOk (digitChar (mo / 10 % 10)) (digitChar (mo % 10)) = true := by
    simp [twoDigOk, digitChar_isDigit _ (hlt _)]
  have e4 : twoDigOk (digitChar (da / 10 % 10)) (digitChar (da % 10)) = true := by
    simp [twoDigOk, digitChar_isDigit _ (hlt _)]
  have vy : twoDig (digitChar (y / 1000 % 10)) (digitChar (y / 100 % 10)) * 100 +
      twoDig (digitChar (y / 10 % 10)) (digitChar (y % 10)) = y := by
    simp only [twoDig, digVal_digitChar _ (hlt _)]
    omega
  have vm : twoDig (digitChar (mo / 10 % 10)) (digitChar (mo % 10)) = mo := by
    simp only [twoDig, digVal_digitChar _ (hlt _)]
    omega
  have vd : twoDig (digitChar (da / 10 % 10)) (digitChar (da % 10)) = da := by
    simp only [twoDig, digVal_digitChar _ (hlt _)]
    omega
  have hlist : (PyDate.isoformat ⟨y, mo, da⟩).toList ++ rest =
      digitChar (y / 1000 % 10) :: digitChar (y / 100 % 10) :: digitChar (y / 10 % 10) ::
      digitChar (y % 10) :: '-' :: digitChar (mo / 10 % 10) :: digitChar (mo % 10) :: '-' ::
      digitChar (da / 10 % 10) :: digitChar (da % 10) :: rest := rfl
  rw [hlist]
  cases rest with
  | nil => simp [fromisoformat, toList_mk, e1, e2, e3, e4, vy, vm, vd, hd]
  | cons c t => simp [fromisoformat, toList_mk, e1, e2, e3, e4, vy, vm, vd, hd]

/-- Stringifying a character list round-trips. -/
theorem mk_toList (s : String) : String.mk s.toList = s := rfl

/-- Deleting twice: after a successful delete no row with that id remains,
so a second delete 404s. -/
theorem delete_twice (j : Nat) (s₀ s' : DState)
    (h : delete_donation j s₀ = Except.ok s') :
    delete_donation j s' = Except.error (Err.notFound "Donation not found") := by
  have hs := delete_ok_anatomy j s₀ s' h
  subst hs
  unfold delete_donation
  have hnone : (s₀.filter (fun r => !(r.id == j))).find? (fun r => r.id == j) = none := by
    rw [List.find?_eq_none]
    intro x hx
    have hmem := List.of_mem_filter hx
    simp at hmem ⊢
    exact hmem
  rw [hnone]

/-- A key bound to JSON null reads as absent at its own position. -/
theorem pyGet_pinsert_null_self (p : Payload) (k : String) :
    pyGet (pinsert p k JVal.jnull) k = none := by
  unfold pyGet pinsert
  simp

/-- Every read from a single-null-field payload is absent. -/
theorem pyGet_null_single (k key : String) :
    pyGet (pinsert pempty k JVal.jnull) key = none := by
  unfold pyGet pinsert pempty
  by_cases h : key = k <;> simp [h]

/-- Validating a payload whose only key is null succeeds with no fields. -/
theorem validate_null_single (k : String) :
    validate_payload Mode.part (pinsert pempty k JVal.jnull) =
      Except.ok ⟨none, none, none, none⟩ := by
  unfold validate_payload check_type check_date
  simp [get_str, get_int, pyGet_null_single]

/-- A successful validation is componentwise successful field checks. -/
theorem validate_ok_parts (m : Mode) (p : Payload) (out : ValidOut)
    (h : validate_payload m p = Except.ok out) :
    get_str m p "donor_name" = Except.ok out.donor_name ∧
    check_type m p = Except.ok out.donation_type ∧
    get_int m p "quantity_or_amount" = Except.ok out.quantity_or_amount ∧
    check_date m p = Except.ok out.date := by
  unfold validate_payload at h
  cases h1 : get_str m p "donor_name" with
  | error e => rw [h1] at h; simp at h
  | ok dn =>
      rw [h1] at h
      cases h2 : check_type m p with
      | error e => rw [h2] at h; simp at h
      | ok dt =>
          rw [h2] at h
          cases h3 : get_int m p "quantity_or_amount" with
          | error e => rw [h3] at h; simp at h
          | ok q =>
              rw [h3] at h
              cases h4 : check_date m p with
              | error e => rw [h4] at h; simp at h
              | ok dd =>
                  rw [h4] at h
                  simp only [Except.ok.injEq] at h
                  subst h
                  exact ⟨rfl, rfl, rfl, rfl⟩

/-! Claim theorems. -/

/-- C1 counterexample: a payload carrying JSON `true` — a boolean, not an
integer — for `quantity_or_amount` is accepted by validation (Python's
`bool` is an `int` subclass and `True >= 1`), with validated value 1.
The claim demands rejection of every non-integer, so it fails here. -/
theorem quantity_bool_accepted :
    validate_payload Mode.part (pinsert pempty "quantity_or_amount" (JVal.jbool true)) =
      Except.ok { donor_name := none, donation_type := none,
                  quantity_or_amount := some 1, date := none } := by decide

/-- C1 (amended): when `quantity_or_amount` is present, `get_int` accepts
exactly the integers `>= 1` and the boolean `true` (which Python counts as
the integer 1); it rejects every integer `<= 0`, the boolean `false`, and
every float, string, array, or object, with the positive-integer message. -/
theorem quantity_validation_amended (m : Mode) (p : Payload) (v : JVal)
    (h : pyGet p "quantity_or_amount" = some v) :
    (∀ n : Int, v = JVal.jint n → 1 ≤ n →
        get_int m p "quantity_or_amount" = Except.ok (some n)) ∧
    (v = JVal.jbool true → get_int m p "quantity_or_amount" = Except.ok (some 1)) ∧
    ((∀ n : Int, v = JVal.jint n → n < 1) → v ≠ JVal.jbool true →
        get_int m p "quantity_or_amount" =
          Except.error (Err.badRequest "quantity_or_amount must be a positive integer")) := by
  refine ⟨?_, ?_, ?_⟩
  · intro n hn h1
    subst hn
    unfold get_int
    rw [h]
    simp [pyIsInt, pyIntVal, h1]
  · intro hv
    subst hv
    unfold get_int
    rw [h]
    simp [pyIsInt, pyIntVal]
  · intro hlt hne
    unfold get_int
    rw [h]
    cases v with
    | jnull => exact absurd h (pyGet_ne_null p _)
    | jbool b =>
        cases b with
        | true => exact absurd rfl hne
        | false => simp [pyIsInt, pyIntVal]
    | jint n =>
        have hn := hlt n rfl
        simp [pyIsInt, pyIntVal, show ¬(1 : Int) ≤ n from by omega]
    | jfloat mm ee => simp [pyIsInt]
    | jstr s => simp [pyIsInt]
    | jarr => simp [pyIsInt]
    | jobj => simp [pyIsInt]

/-- C1 witness: the amended theorem applied to a concrete payload holding
the integer 5. -/
theorem quantity_validation_amended_witness :
    pyGet pQty5 "quantity_or_amount" = some (JVal.jint 5) ∧
    get_int Mode.part pQty5 "quantity_or_amount" = Except.ok (some 5) :=
  ⟨by decide,
    (quantity_validation_amended Mode.part pQty5 (JVal.jint 5) (by decide)).1 5 rfl
      (by norm_num)⟩

/-- C3 counterexample: create (id 1), delete id 1, create again — the new
row is assigned id 1 again, because SQLite's rowid allocation (INTEGER
PRIMARY KEY without AUTOINCREMENT) picks one more than the largest id in
use; the claim's "never reused after deletion" fails. -/
theorem id_reused_after_delete :
    (stepOp 0 (Op.create pAlice) []).map Donation.id = [1] ∧
    stepOp 1 (Op.delete 1) (stepOp 0 (Op.create pAlice) []) = [] ∧
    (stepOp 2 (Op.create pAlice)
        (stepOp 1 (Op.delete 1) (stepOp 0 (Op.create pAlice) []))).map Donation.id = [1] := by
  decide

/-- C3 (amended): a successful create assigns id `nextId s`, one more than
the largest id currently in the table — strictly greater than every live
id, so ids increase monotonically as long as the row holding the maximum
id is never deleted; after such a deletion the id is reused (see the
counterexample). -/
theorem create_id_one_plus_max (now : Nat) (p : Payload) (s s' : DState) (row : Donation)
    (h : create_donation now p s = Except.ok (s', row)) :
    row.id = nextId s ∧ (∀ r ∈ s, r.id < row.id) ∧ s' = s ++ [row] := by
  obtain ⟨hs, hid, _, _, _⟩ := create_ok_anatomy now p s s' row h
  refine ⟨hid, ?_, hs⟩
  intro r hr
  rw [hid]
  exact Nat.lt_succ_of_le (id_le_maxId s r hr)

/-- C3 witness: creating into a table already holding `rowEx` (id 1)
assigns id 2 = nextId, which is greater than id 1. -/
theorem create_id_one_plus_max_witness :
    create_donation 3 pAlice [rowEx] = Except.ok ([rowEx, rowEx2], rowEx2) ∧
    rowEx2.id = nextId [rowEx] ∧ rowEx.id < rowEx2.id :=
  ⟨by decide,
    (create_id_one_plus_max 3 pAlice [rowEx] [rowEx, rowEx2] rowEx2 (by decide)).1,
    (create_id_one_plus_max 3 pAlice [rowEx] [rowEx, rowEx2] rowEx2 (by decide)).2.1
      rowEx (by decide)⟩

/-- C5: when validation fails, create and update return exactly the
validation error — for every store state, so the store is never read or
written — and the persisted state is unchanged. -/
theorem validation_short_circuits_store (now id : Nat) (p q : Payload) (e e' : Err)
    (s : DState)
    (hp : validate_payload Mode.full p = Except.error e)
    (hq : validate_payload Mode.part q = Except.error e') :
    create_donation now p s = Except.error e ∧
    update_donation now id q s = Except.error e' ∧
    stepOp now (Op.create p) s = s ∧
    stepOp now (Op.update id q) s = s := by
  have hc : create_donation now p s = Except.error e := by
    simp [create_donation, hp]
  have hu : update_donation now id q s = Except.error e' := by
    simp [update_donation, hq]
  exact ⟨hc, hu, by simp [stepOp, hc], by simp [stepOp, hu]⟩

/-- C5 witness: the invalid payload `pBad` short-circuits both operations
on a concrete nonempty store. -/
theorem validation_short_circuits_store_witness :
    validate_payload Mode.full pBad =
      Except.error (Err.badRequest "donation_type must be one of [clothing, food, money, other]") ∧
    stepOp 9 (Op.create pBad) [rowEx] = [rowEx] :=
  ⟨by decide,
    (validation_short_circuits_store 9 1 pBad pBad
      (Err.badRequest "donation_type must be one of [clothing, food, money, other]")
      (Err.badRequest "donation_type must be one of [clothing, food, money, other]")
      [rowEx] (by decide) (by decide)).2.2.1⟩

/-- C6: update (with a validated field set) and delete on an id absent
from the table both yield the 404 "Donation not found" error and leave the
state unchanged; and after any successful delete, deleting the same id
again yields the same 404 — so a repeated delete 404s both times. -/
theorem missing_id_yields_not_found (now id : Nat) (p : Payload) (data : ValidOut)
    (s : DState)
    (hv : validate_payload Mode.part p = Except.ok data)
    (hf : s.find? (fun r => r.id == id) = none) :
    update_donation now id p s = Except.error (Err.notFound "Donation not found") ∧
    delete_donation id s = Except.error (Err.notFound "Donation not found") ∧
    stepOp now (Op.update id p) s = s ∧
    stepOp now (Op.delete id) s = s ∧
    (∀ j s₀ s', delete_donation j s₀ = Except.ok s' →
      delete_donation j s' = Except.error (Err.notFound "Donation not found")) := by
  have hu : update_donation now id p s = Except.error (Err.notFound "Donation not found") := by
    simp [update_donation, hv, hf]
  have hdel : delete_donation id s = Except.error (Err.notFound "Donation not found") := by
    simp [delete_donation, hf]
  exact ⟨hu, hdel, by simp [stepOp, hu], by simp [stepOp, hdel],
    fun j s₀ s' h => delete_twice j s₀ s' h⟩

/-- C6 witness: updating and deleting id 7 in a store holding only id 1,
and double-deleting id 1. -/
theorem missing_id_yields_not_found_witness :
    update_donation 4 7 pQty5 [rowEx] = Except.error (Err.notFound "Donation not found") ∧
    delete_donation 7 [rowEx] = Except.error (Err.notFound "Donation not found") ∧
    delete_donation 1 [rowEx] = Except.ok [] ∧
    delete_donation 1 ([] : DState) = Except.error (Err.notFound "Donation not found") :=
  ⟨(missing_id_yields_not_found 4 7 pQty5 dataQty5 [rowEx] (by decide) (by decide)).1,
    (missing_id_yields_not_found 4 7 pQty5 dataQty5 [rowEx] (by decide) (by decide)).2.1,
    by decide,
    (missing_id_yields_not_found 4 7 pQty5 dataQty5 [rowEx] (by decide) (by decide)).2.2.2.2
      1 [rowEx] [] (by decide)⟩

/-- C2: updating an existing record applies exactly the keys present in
the validated field set, keeps `id`, `created_at` and every unsupplied
business field, sets `updated_at` to the current time regardless of the
fields supplied (so an empty field set yields the same record with only
`updated_at` advanced), and leaves every other record in place. -/
theorem update_applies_only_present_fields (now id : Nat) (p : Payload) (s : DState)
    (data : ValidOut) (row : Donation)
    (hv : validate_payload Mode.part p = Except.ok data)
    (hf : s.find? (fun r => r.id == id) = some row) :
    update_donation now id p s =
      Except.ok
        (s.map (fun r => if r.id == id then
            { apply_fields data row with updated_at := now } else r),
          { apply_fields data row with updated_at := now }) ∧
    ({ apply_fields data row with updated_at := now } : Donation).id = row.id ∧
    ({ apply_fields data row with updated_at := now } : Donation).created_at =
      row.created_at ∧
    ({ apply_fields data row with updated_at := now } : Donation).updated_at = now ∧
    (data.donor_name = none → (apply_fields data row).donor_name = row.donor_name) ∧
    (data.donation_type = none →
      (apply_fields data row).donation_type = row.donation_type) ∧
    (data.quantity_or_amount = none →
      (apply_fields data row).quantity_or_amount = row.quantity_or_amount) ∧
    (data.date = none → (apply_fields data row).date = row.date) ∧
    (∀ d, data.donor_name = some d → (apply_fields data row).donor_name = d) ∧
    (∀ d, data.donation_type = some d → (apply_fields data row).donation_type = d) ∧
    (∀ d, data.quantity_or_amount = some d →
      (apply_fields data row).quantity_or_amount = d) ∧
    (∀ d, data.date = some d → (apply_fields data row).date = d) ∧
    (data = ⟨none, none, none, none⟩ →
      ({ apply_fields data row with updated_at := now } : Donation) =
        { row with updated_at := now }) ∧
    (∀ r, r ∈ s → (r.id == id) = false →
      r ∈ s.map (fun r => if r.id == id then
        { apply_fields data row with updated_at := now } else r)) := by
  refine ⟨?_, rfl, rfl, rfl, ?_, ?_, ?_, ?_, ?_, ?_, ?_, ?_, ?_, ?_⟩
  · simp [update_donation, hv, hf]
  · intro hn; simp [apply_fields, hn]
  · intro hn; simp [apply_fields, hn]
  · intro hn; simp [apply_fields, hn]
  · intro hn; simp [apply_fields, hn]
  · intro d hd; simp [apply_fields, hd]
  · intro d hd; simp [apply_fields, hd]
  · intro d hd; simp [apply_fields, hd]
  · intro d hd; simp [apply_fields, hd]
  · intro hdata; subst hdata; simp [apply_fields]
  · intro r hr hne
    rw [List.mem_map]
    exact ⟨r, hr, by rw [hne]; rfl⟩

/-- C2 witness: applying the quantity-only payload to a concrete store. -/
theorem update_applies_only_present_fields_witness :
    validate_payload Mode.part pQty5 = Except.ok dataQty5 ∧
    [rowEx].find? (fun r => r.id == 1) = some rowEx ∧
    update_donation 1 1 pQty5 [rowEx] =
      Except.ok
        ([rowEx].map (fun r => if r.id == 1 then
            { apply_fields dataQty5 rowEx with updated_at := 1 } else r),
          { apply_fields dataQty5 rowEx with updated_at := 1 }) ∧
    (apply_fields dataQty5 rowEx).donor_name = rowEx.donor_name :=
  ⟨by decide, by decide,
    (update_applies_only_present_fields 1 1 pQty5 [rowEx] dataQty5 rowEx
      (by decide) (by decide)).1,
    (update_applies_only_present_fields 1 1 pQty5 [rowEx] dataQty5 rowEx
      (by decide) (by decide)).2.2.2.2.1 rfl⟩

/-- C7: starting from the empty table, along any trace of create, update
and delete requests with nondecreasing timestamps, every persisted record
has `quantity_or_amount >= 1`, a `donation_type` in the allowed set, and
`updated_at >= created_at`; moreover each single operation preserves this
invariant (together with the clock bound). -/
theorem persisted_records_invariant (tr : List (Nat × Op)) (h : TimesMono 0 tr) :
    (∀ r ∈ runTrace [] tr, 1 ≤ r.quantity_or_amount ∧
        allowed_types.contains r.donation_type = true ∧
        r.created_at ≤ r.updated_at) ∧
    (∀ t now op s, BizInv s → TimeBound t s → t ≤ now →
        BizInv (stepOp now op s) ∧ TimeBound now (stepOp now op s)) := by
  constructor
  · exact runTrace_inv tr [] 0 (fun r hr => absurd hr (List.not_mem_nil r))
      (fun r hr => absurd hr (List.not_mem_nil r)) h
  · intro t now op s hb ht hle
    exact step_preserves t now op s hb ht hle

/-- C7 witness: the invariant evaluated on the final record of a concrete
create–update–create trace. -/
theorem persisted_records_invariant_witness :
    TimesMono 0 trEx ∧
    (1 ≤ rowEx3.quantity_or_amount ∧
      allowed_types.contains rowEx3.donation_type = true ∧
      rowEx3.created_at ≤ rowEx3.updated_at) :=
  ⟨by simp [TimesMono, trEx],
    (persisted_records_invariant trEx (by simp [TimesMono, trEx])).1 rowEx3 (by decide)⟩

/-- C8: validation fails on the first invalid field in the fixed source
order donor_name, donation_type, quantity_or_amount, date — whatever error
that field's own check produces is the single error reported, regardless
of later fields. -/
theorem validate_fails_on_first_invalid (m : Mode) (p : Payload) :
    (∀ e, get_str m p "donor_name" = Except.error e →
        validate_payload m p = Except.error e) ∧
    (∀ a e, get_str m p "donor_name" = Except.ok a →
        check_type m p = Except.error e →
        validate_payload m p = Except.error e) ∧
    (∀ a b e, get_str m p "donor_name" = Except.ok a →
        check_type m p = Except.ok b →
        get_int m p "quantity_or_amount" = Except.error e →
        validate_payload m p = Except.error e) ∧
    (∀ a b c e, get_str m p "donor_name" = Except.ok a →
        check_type m p = Except.ok b →
        get_int m p "quantity_or_amount" = Except.ok c →
        check_date m p = Except.error e →
        validate_payload m p = Except.error e) := by
  refine ⟨?_, ?_, ?_, ?_⟩
  · intro e he
    simp [validate_payload, he]
  · intro a e ha he
    simp [validate_payload, ha, he]
  · intro a b e ha hb he
    simp [validate_payload, ha, hb, he]
  · intro a b c e ha hb hc he
    simp [validate_payload, ha, hb, hc, he]

/-- C8 witness: in `pBad` the donor name is valid while donation_type,
quantity and date are each invalid; the reported error is donation_type's,
the first invalid field in order. -/
theorem validate_fails_on_first_invalid_witness :
    get_str Mode.full pBad "donor_name" = Except.ok (some "Bob") ∧
    check_type Mode.full pBad =
      Except.error (Err.badRequest "donation_type must be one of [clothing, food, money, other]") ∧
    get_int Mode.full pBad "quantity_or_amount" =
      Except.error (Err.badRequest "quantity_or_amount must be a positive integer") ∧
    check_date Mode.full pBad =
      Except.error (Err.badRequest "Invalid date format; expected ISO (YYYY-MM-DD)") ∧
    validate_payload Mode.full pBad =
      Except.error (Err.badRequest "donation_type must be one of [clothing, food, money, other]") :=
  ⟨by decide, by decide, by decide, by decide,
    (validate_fails_on_first_invalid Mode.full pBad).2.1 (some "Bob")
      (Err.badRequest "donation_type must be one of [clothing, food, money, other]")
      (by decide) (by decide)⟩

/-- C4: the date field accepts exactly strings parsed by
`datetime.fromisoformat` (CPython 3.11 semantics, checked against 3.11.6;
ISO week dates are outside the modelled domain) — a valid `YYYY-MM-DD` or
compact `YYYYMMDD` calendar date, optionally followed by a separator
character and a full ISO time portion with optional fraction and
`Z`/`+`/`-` offset — retaining only the date component; non-strings get
the type-specific message and unparseable strings the format-specific
message; concretely, a record created with date "2024-01-15T10:00:00"
stores the bare date and serializes on the wire as "2024-01-15". -/
theorem date_validation :
    (∀ v : JVal, (∀ s, v ≠ JVal.jstr s) →
        parse_iso_date v =
          Except.error (Err.badRequest "date must be a string in ISO format (YYYY-MM-DD)")) ∧
    (∀ s : String, fromisoformat s = none →
        parse_iso_date (JVal.jstr s) =
          Except.error (Err.badRequest "Invalid date format; expected ISO (YYYY-MM-DD)")) ∧
    (∀ s d, fromisoformat s = some d → parse_iso_date (JVal.jstr s) = Except.ok d) ∧
    (∀ d : PyDate, validDate d = true → fromisoformat d.isoformat = some d) ∧
    (∀ (d : PyDate) (c : Char) (t : List Char), validDate d = true → validTime t = true →
        fromisoformat (String.mk (d.isoformat.toList ++ c :: t)) = some d) ∧
    (create_donation 0 pAliceT [] = Except.ok ([rowEx], rowEx) ∧
      rowEx.to_dict.date = "2024-01-15") := by
  refine ⟨?_, ?_, ?_, ?_, ?_, by decide, by decide⟩
  · intro v hv
    cases v with
    | jstr s => exact absurd rfl (hv s)
    | jnull => rfl
    | jbool b => rfl
    | jint n => rfl
    | jfloat mm ee => rfl
    | jarr => rfl
    | jobj => rfl
  · intro s hs
    simp [parse_iso_date, hs]
  · intro s d hs
    simp [parse_iso_date, hs]
  · intro d hd0
    obtain ⟨y, mo, da⟩ := d
    have h := fromiso_append y mo da [] hd0
    simpa [mk_toList] using h
  · intro d c t hd0 ht
    obtain ⟨y, mo, da⟩ := d
    have h := fromiso_append y mo da (c :: t) hd0
    simpa [ht] using h

/-- C4 witness: concrete dates — plain, with a plain timestamp, with a
fraction directly after the hour, with a `Z` offset, compact — and a
concrete rejection. -/
theorem date_validation_witness :
    fromisoformat "2024-01-15" = some ⟨2024, 1, 15⟩ ∧
    parse_iso_date (JVal.jstr "2024-01-15") = Except.ok ⟨2024, 1, 15⟩ ∧
    parse_iso_date (JVal.jstr "2024-01-15T10.123") = Except.ok ⟨2024, 1, 15⟩ ∧
    parse_iso_date (JVal.jstr "2024-01-15T10:00:00Z") = Except.ok ⟨2024, 1, 15⟩ ∧
    fromisoformat "20240115" = some ⟨2024, 1, 15⟩ ∧
    fromisoformat "garbage" = none ∧
    parse_iso_date (JVal.jstr "garbage") =
      Except.error (Err.badRequest "Invalid date format; expected ISO (YYYY-MM-DD)") :=
  ⟨by decide,
    date_validation.2.2.1 "2024-01-15" ⟨2024, 1, 15⟩ (by decide),
    date_validation.2.2.1 "2024-01-15T10.123" ⟨2024, 1, 15⟩ (by decide),
    date_validation.2.2.1 "2024-01-15T10:00:00Z" ⟨2024, 1, 15⟩ (by decide),
    by decide,
    by decide,
    date_validation.2.1 "garbage" (by decide)⟩

/-- C9: a present (non-null) donor_name is accepted iff it is a string
that is non-empty after stripping whitespace, in which case the stripped
value is what reaches the validated output; anything else gets the
non-empty-string message. -/
theorem donor_name_trimmed_nonempty (m : Mode) (p : Payload) (v : JVal)
    (h : pyGet p "donor_name" = some v) :
    (∀ s, v = JVal.jstr s → pyStrip s ≠ "" →
        get_str m p "donor_name" = Except.ok (some (pyStrip s))) ∧
    ((∀ s, v = JVal.jstr s → pyStrip s = "") →
        get_str m p "donor_name" =
          Except.error (Err.badRequest "donor_name must be a non-empty string")) ∧
    (∀ out s, validate_payload m p = Except.ok out → v = JVal.jstr s →
        out.donor_name = some (pyStrip s)) := by
  refine ⟨?_, ?_, ?_⟩
  · intro s hs hne
    subst hs
    unfold get_str
    rw [h]
    simp [hne]
  · intro hempty
    unfold get_str
    rw [h]
    cases v with
    | jnull => exact absurd h (pyGet_ne_null p _)
    | jstr s => simp [hempty s rfl]
    | jbool b => rfl
    | jint n => rfl
    | jfloat mm ee => rfl
    | jarr => rfl
    | jobj => rfl
  · intro out s hout hs
    subst hs
    have hdn := (validate_ok_parts m p out hout).1
    unfold get_str at hdn
    rw [h] at hdn
    by_cases he : pyStrip s = ""
    · simp [he] at hdn
    · simp [he] at hdn
      exact hdn.symm

/-- C9 witness: a donor name with surrounding whitespace is stripped. -/
theorem donor_name_trimmed_nonempty_witness :
    pyGet (pinsert pempty "donor_name" (JVal.jstr "  Ann  ")) "donor_name" =
      some (JVal.jstr "  Ann  ") ∧
    get_str Mode.part (pinsert pempty "donor_name" (JVal.jstr "  Ann  ")) "donor_name" =
      Except.ok (some "Ann") :=
  ⟨by decide,
    (donor_name_trimmed_nonempty Mode.part
      (pinsert pempty "donor_name" (JVal.jstr "  Ann  ")) (JVal.jstr "  Ann  ")
      (by decide)).1 "  Ann  " rfl (by decide)⟩

/-- C10: a field bound to JSON null behaves exactly like an absent field:
validation cannot distinguish the two payloads; in full mode a null
donor_name is rejected with the Missing-required-field message (not a type
error); and a partial update whose only key is null-valued succeeds,
leaving every business field of the stored record unchanged and advancing
only `updated_at`. -/
theorem null_field_treated_as_absent (m : Mode) (p : Payload) (k : String) :
    validate_payload m (pinsert p k JVal.jnull) = validate_payload m (pdelete p k) ∧
    validate_payload Mode.full (pinsert p "donor_name" JVal.jnull) =
      Except.error (Err.badRequest "Missing required field: donor_name") ∧
    (∀ now id s row, s.find? (fun r => r.id == id) = some row →
        update_donation now id (pinsert pempty k JVal.jnull) s =
          Except.ok
            (s.map (fun r => if r.id == id then { row with updated_at := now } else r),
              { row with updated_at := now })) := by
  refine ⟨?_, ?_, ?_⟩
  · exact validate_payload_congr m _ _ (pyGet_pinsert_null p k)
  · have hg : get_str Mode.full (pinsert p "donor_name" JVal.jnull) "donor_name" =
        Except.error (Err.badRequest "Missing required field: donor_name") := by
      unfold get_str
      rw [pyGet_pinsert_null_self]
      rfl
    simp [validate_payload, hg]
  · intro now id s row hf
    have hv := validate_null_single k
    have happ : ({ apply_fields ⟨none, none, none, none⟩ row with
        updated_at := now } : Donation) = { row with updated_at := now } := by
      simp [apply_fields]
    simp [update_donation, hv, hf, happ]

/-- C10 witness: null donor_name rejected as missing in full mode, and a
null-valued partial update leaves the record's business fields alone. -/
theorem null_field_treated_as_absent_witness :
    validate_payload Mode.full (pinsert pAlice "donor_name" JVal.jnull) =
      Except.error (Err.badRequest "Missing required field: donor_name") ∧
    update_donation 6 1 (pinsert pempty "donor_name" JVal.jnull) [rowEx] =
      Except.ok
        ([rowEx].map (fun r => if r.id == 1 then { rowEx with updated_at := 6 } else r),
          { rowEx with updated_at := 6 }) :=
  ⟨(null_field_treated_as_absent Mode.part pAlice "donor_name").2.1,
    (null_field_treated_as_absent Mode.part pempty "donor_name").2.2 6 1 [rowEx] rowEx
      (by decide)⟩
